import Mathlib

/-!
Verification of the consumer-processor worker: shallow embedding of the
queue adapter, storage adapter, retrying fetcher, scene-optimization
pipeline, profile expansion and URN normalization, with theorems settling
the specification claims.
-/

set_option maxHeartbeats 1000000

namespace ConsumerProcessor

/-! ### URN normalization (components.ts, urnToPointer)

JavaScript strings are modelled as lists of characters.  `splitOnColon`
models splitting at colons, `joinColon` models joining with colons, and
`containsSub` models the JavaScript substring-containment test. -/

abbrev JStr := List Char

/-- Model of splitting a JavaScript string at every colon: the empty string
splits into one empty segment, and a lone colon into two empty segments. -/
def splitOnColon : JStr → List JStr
  | [] => [[]]
  | c :: rest =>
    match splitOnColon rest with
    | [] => [[c]]
    | p :: ps => if c = ':' then [] :: p :: ps else (c :: p) :: ps

/-- Model of joining a list of segments with colons. -/
def joinColon : List JStr → JStr
  | [] => []
  | [p] => p
  | p :: q :: ps => p ++ ':' :: joinColon (q :: ps)

/-- Does `pat` occur at the start of `s`? -/
def startsWith : JStr → JStr → Bool
  | [], _ => true
  | _ :: _, [] => false
  | p :: ps, c :: cs => p = c && startsWith ps cs

/-- Model of the JavaScript substring-containment test: does `pat` occur
contiguously anywhere in `s`? -/
def containsSub (pat : JStr) : JStr → Bool
  | [] => startsWith pat []
  | c :: cs => startsWith pat (c :: cs) || containsSub pat cs

def collectionsV2 : JStr := "collections-v2".data

/-- Translation of `urnToPointer` (src/src/components.ts:22-30): URNs that
contain "collections-v2" and have more than 6 colon-delimited segments are
truncated to their first 6 segments; every other string is returned
unchanged. -/
def urnToPointer (urn : JStr) : JStr :=
  let parts := splitOnColon urn
  if containsSub collectionsV2 urn ∧ 6 < parts.length then joinColon (parts.take 6)
  else urn

/-! ### Storage adapter (src/src/adapters/storage.ts)

The outcome of each underlying upload attempt is an oracle
`succ : key → attempt-index → Bool` (true means the attempt resolves).
The object-store storeFiles retries with a budget of 3 per file and throws
when the budget is exhausted; the local storeFile swallows every error. -/

/-- The retry loop of the object-store storeFiles for one file: `budget`
attempts remain and `a` is the index of the next attempt; true iff some
attempt within the budget succeeds. -/
def s3TryFile (succ : Nat → Bool) : Nat → Nat → Bool
  | 0, _ => false
  | budget + 1, a => if succ a then true else s3TryFile succ budget (a + 1)

/-- Number of upload attempts the retry loop makes for one file. -/
def s3FileAttempts (succ : Nat → Bool) : Nat → Nat → Nat
  | 0, _ => 0
  | budget + 1, a => if succ a then 1 else s3FileAttempts succ budget (a + 1) + 1

/-- Object-store storeFiles (storage.ts:48-91): files are stored one after
the other, each with a retry budget of 3; when a file fails every attempt
the whole batch throws.  Returns the stored keys in order. -/
def s3StoreFiles (succ : String → Nat → Bool) :
    List (String × String) → Except String (List String)
  | [] => .ok []
  | (key, _path) :: rest =>
    if s3TryFile (succ key) 3 0 then
      match s3StoreFiles succ rest with
      | .ok keys => .ok (key :: keys)
      | .error e => .error e
    else .error ("Failed to store file " ++ key ++ " after 3 attempts")

/-- Local storeFile (storage.ts:100-111): one write attempt, every error
caught and logged; returns whether the write succeeded. -/
def localStoreFile (succ : String → Nat → Bool) (key : String) : Bool := succ key 0

/-- Local storeFiles (storage.ts:113-117): delegates to storeFile for each
file; no retries, never throws. -/
def localStoreFiles (succ : String → Nat → Bool) :
    List (String × String) → Except String (List Bool)
  | [] => .ok []
  | (key, _path) :: rest =>
    match localStoreFiles succ rest with
    | .ok flags => .ok (localStoreFile succ key :: flags)
    | .error e => .error e

/-- Did the computation succeed (no exception)? -/
def exceptOk {ε α : Type} : Except ε α → Bool
  | .ok _ => true
  | .error _ => false

/-! ### Cloud queue adapter, delivery handling (src/src/adapters/sqs.ts) -/

/-- Outcome of the task runner (handler) for one delivery. -/
inductive HandlerOutcome (R : Type) : Type
  | ok (value : R)
  | exn (msg : String)

def HandlerOutcome.isOk {R : Type} : HandlerOutcome R → Bool
  | .ok _ => true
  | .exn _ => false

/-- Commands sent to the queue backend while handling one delivery. -/
inductive SqsCmd : Type
  | deleteMessage (queueUrl receipt : String)
deriving DecidableEq

structure DeliveryStep (R : Type) : Type where
  cmds : List SqsCmd
  failuresInc : Nat
  timerEnded : Bool
  result : Option R

/-- Translation of the delivery-handling block of consumeAndProcessJob
(sqs.ts:200-232): on success the delivery is deleted from the queue it was
received from and the result returned; on a handler exception the failure
counter is incremented and the function returns with no delete issued.
The duration timer ends in both cases. -/
def processDelivery {R : Type} (queueUsed receipt : String) (h : HandlerOutcome R) :
    DeliveryStep R :=
  match h with
  | .ok r =>
    { cmds := [.deleteMessage queueUsed receipt], failuresInc := 0,
      timerEnded := true, result := some r }
  | .exn _ =>
    { cmds := [], failuresInc := 1, timerEnded := true, result := none }

/-! ### Retrying fetcher (src/src/adapters/fetch.ts)

Delays are rational numbers of milliseconds; the jitter draw r is the
value of the uniform random sample in [0, 1). -/

structure FetchConfig : Type where
  maxRetries : Nat
  initialDelayMs : ℚ
  maxDelayMs : ℚ
  timeoutMs : ℚ
  backoffMultiplier : ℚ

/-- Translation of calculateDelay (fetch.ts:63-71): exponential backoff
capped at maxDelayMs, plus a jitter of r times 0.25 of the capped delay,
floored to an integer number of milliseconds. -/
def calculateDelay (attempt : Nat) (cfg : FetchConfig) (r : ℚ) : ℤ :=
  let exponentialDelay := cfg.initialDelayMs * cfg.backoffMultiplier ^ attempt
  let cappedDelay := min exponentialDelay cfg.maxDelayMs
  let jitter := cappedDelay * r * (1 / 4)
  ⌊cappedDelay + jitter⌋

def RETRYABLE_ERROR_CODES : List String :=
  ["ENOTFOUND", "ETIMEDOUT", "ECONNRESET", "ECONNREFUSED",
   "EPIPE", "ENETUNREACH", "EHOSTUNREACH", "EAI_AGAIN"]

def RETRYABLE_HTTP_STATUS : List Nat := [408, 429, 500, 502, 503, 504]

def isRetryableStatus (status : Nat) : Bool := RETRYABLE_HTTP_STATUS.contains status

def isRetryableCode (code : String) : Bool := RETRYABLE_ERROR_CODES.contains code

/-- What the n-th fetch attempt observes: a response with a status code, or
a thrown network error with an error code (isAbort marks the per-attempt
timeout firing). -/
inductive AttemptOutcome : Type
  | response (status : Nat)
  | failure (code : String) (isAbort : Bool)

structure FetchTrace : Type where
  attemptsMade : Nat
  sleeps : List (Nat × ℤ)
  outcome : Except String Nat

/-- Translation of the retry loop of createFetchComponent.fetch
(fetch.ts:94-160).  `fuel` bounds the remaining iterations (the source
for-loop runs attempt = 0 .. maxRetries); `attempt` is the current attempt
index.  A retryable status or retryable/abort error with attempts left
sleeps for calculateDelay and continues; anything else returns. -/
def fetchGo (cfg : FetchConfig) (outcomes : Nat → AttemptOutcome) (rand : Nat → ℚ) :
    Nat → Nat → FetchTrace
  | 0, _ => { attemptsMade := 0, sleeps := [], outcome := .error "retries exhausted" }
  | fuel + 1, attempt =>
    match outcomes attempt with
    | .response status =>
      if isRetryableStatus status ∧ attempt < cfg.maxRetries then
        let d := calculateDelay attempt cfg (rand attempt)
        let rest := fetchGo cfg outcomes rand fuel (attempt + 1)
        { attemptsMade := rest.attemptsMade + 1, sleeps := (attempt, d) :: rest.sleeps,
          outcome := rest.outcome }
      else { attemptsMade := 1, sleeps := [], outcome := .ok status }
    | .failure code isAbort =>
      if (isAbort ∨ isRetryableCode code) ∧ attempt < cfg.maxRetries then
        let d := calculateDelay attempt cfg (rand attempt)
        let rest := fetchGo cfg outcomes rand fuel (attempt + 1)
        { attemptsMade := rest.attemptsMade + 1, sleeps := (attempt, d) :: rest.sleeps,
          outcome := rest.outcome }
      else { attemptsMade := 1, sleeps := [], outcome := .error code }

/-- One full run of the retrying fetch: at most maxRetries + 1 iterations. -/
def fetchModel (cfg : FetchConfig) (outcomes : Nat → AttemptOutcome) (rand : Nat → ℚ) :
    FetchTrace :=
  fetchGo cfg outcomes rand (cfg.maxRetries + 1) 0

/-- A configuration whose cap is below the exponential curve: defaults
except maxDelayMs = 1000. -/
def cfgCap : FetchConfig :=
  { maxRetries := 3, initialDelayMs := 1000, maxDelayMs := 1000,
    timeoutMs := 60000, backoffMultiplier := 2 }

/-- The default configuration (fetch.ts:85-91). -/
def cfgDefault : FetchConfig :=
  { maxRetries := 3, initialDelayMs := 1000, maxDelayMs := 30000,
    timeoutMs := 60000, backoffMultiplier := 2 }

/-- A 503 on the first attempt, 200 afterwards. -/
def outcomes503 : Nat → AttemptOutcome :=
  fun n => if n = 0 then .response 503 else .response 200

/-! ### Cloud queue adapter, multi-queue polling (src/src/adapters/sqs.ts) -/

structure SqsAdapterOptions : Type where
  queueUrl : String
  priorityQueueUrl : Option String
  wearableQueueUrl : Option String
  emoteQueueUrl : Option String

structure QueueInfo : Type where
  url : String
  nm : String
deriving DecidableEq

/-- A truthy optional queue URL contributes one entry. -/
def optQueue (o : Option String) (nm : String) : List QueueInfo :=
  match o with
  | some u => if u = "" then [] else [⟨u, nm⟩]
  | none => []

/-- Translation of the entityQueues construction (sqs.ts:112-115): scene,
wearable and emote queues, each added when its URL is truthy.  The
priority queue is not part of this list. -/
def entityQueues (o : SqsAdapterOptions) : List QueueInfo :=
  (if o.queueUrl = "" then [] else [⟨o.queueUrl, "scene"⟩]) ++
    optQueue o.wearableQueueUrl "wearable" ++ optQueue o.emoteQueueUrl "emote"

structure ReceiveOut : Type where
  selected : Option Nat
  fromPriority : Bool
  nextCursor : Nat
deriving DecidableEq

/-- Translation of receiveMessage (sqs.ts:139-172) over `n` entity queues
(indices 0 .. n-1).  `hasPriority` and `priorityAvail` describe the
optional priority queue and whether its short receive returns a message;
`avail i` tells whether entity queue `i` returns a message when polled in
this cycle; `cur` is the round-robin cursor.  Returns which queue was
selected (none when every poll came back empty) and the new cursor. -/
def receiveMessage (hasPriority priorityAvail : Bool) (n : Nat) (avail : Nat → Bool)
    (cur : Nat) : ReceiveOut :=
  if hasPriority ∧ priorityAvail then
    { selected := none, fromPriority := true, nextCursor := cur }
  else if n = 0 then
    { selected := none, fromPriority := false, nextCursor := cur }
  else
    match (List.range n).find? (fun i => avail ((cur + i) % n)) with
    | some i =>
      { selected := some ((cur + i) % n), fromPriority := false,
        nextCursor := ((cur + i) % n + 1) % n }
    | none =>
      { selected := none, fromPriority := false, nextCursor := (cur + 1) % n }

/-- Selections over `k` successive polls of `n` never-empty entity queues
with no priority queue configured. -/
def pollsRR (n cur : Nat) : Nat → List Nat
  | 0 => []
  | k + 1 =>
    let r := receiveMessage false false n (fun _ => true) cur
    match r.selected with
    | some idx => idx :: pollsRR n r.nextCursor k
    | none => pollsRR n r.nextCursor k

/-! ### Godot optimizer dispatch and the main queue loop
(godot-optimizer runner, godotOptimizer; service module, main loop)

Events record which job each engine interaction belongs to; the pipeline
body is abstracted by the number of steps it performs and whether it
throws, since the claim is about the ordering of the restart relative to
the pipeline and to the next job. -/

inductive OptEvt : Type
  | pipelineStep (jobId step : Nat)
  | restartGodot (jobId : Nat)
deriving DecidableEq

structure JobSpec : Type where
  jobId : Nat
  pipelineSteps : Nat
  pipelineThrows : Bool

def pipelineTrace (j : JobSpec) : List OptEvt :=
  (List.range j.pipelineSteps).map (OptEvt.pipelineStep j.jobId)

/-- godotOptimizer (optimizer runner, lines 52-89): the entity is processed
inside a try block whose finally awaits restartGodot, so the restart event
follows the full pipeline trace whether or not the pipeline throws, and a
thrown error propagates only after the finally completes. -/
def godotOptimizerRun (j : JobSpec) : List OptEvt × Bool :=
  (pipelineTrace j ++ [OptEvt.restartGodot j.jobId], j.pipelineThrows)

/-- The per-job handler of the main loop wraps godotOptimizer in a
try/catch that only logs, so the handler itself never throws. -/
def handlerRun (j : JobSpec) : List OptEvt × Bool :=
  ((godotOptimizerRun j).1, false)

/-- The main queue loop consumes jobs strictly one after another; its trace
is the concatenation of the per-job handler traces. -/
def loopRun : List JobSpec → List OptEvt
  | [] => []
  | j :: rest => (handlerRun j).1 ++ loopRun rest

/-! ### Profile expansion (src/src/components.ts, handleProfile) -/

structure EmoteRef : Type where
  urn : String

structure AvatarData : Type where
  wearables : List String
  emotes : List EmoteRef

structure ProfileResp : Type where
  ok : Bool
  avatars : List AvatarData

structure ContentItem : Type where
  file : String
  hash : String

structure EntityJson : Type where
  id : String
  pointers : List String
  content : List ContentItem

structure EntitiesResp : Type where
  ok : Bool
  entities : List EntityJson

/-- Result of an awaited fetch: a parsed value or a thrown error. -/
inductive FetchOut (α : Type) : Type
  | ok (v : α)
  | exn (msg : String)

/-- What the engine reports for one submitted asset: the terminal batch
status with its optional zip path, or the exception thrown while
submitting or waiting. -/
inductive AssetOut : Type
  | exn (msg : String)
  | status (st : String) (zipPath : Option String) (err : Option String)

structure ProfileEnv : Type where
  isReady : Bool
  profileFetch : FetchOut ProfileResp
  entitiesFetch : FetchOut EntitiesResp
  concurrentLimit : Nat
  asset : String → AssetOut

/-- JavaScript substring containment at the String level. -/
def strIncludes (pat s : String) : Bool := containsSub pat.data s.data

/-- urnToPointer at the String level. -/
def urnToPointerS (u : String) : String := ⟨urnToPointer u.data⟩

/-- Insertion-order set construction (JavaScript Set). -/
def jsDedup (l : List String) : List String :=
  l.foldl (fun acc h => if h ∈ acc then acc else acc ++ [h]) []

/-- Wearable pointer set (components.ts:85-90): wearables not containing
"base-avatars", token-id-stripped, deduplicated in insertion order. -/
def wearablePointers (ws : List String) : List String :=
  jsDedup ((ws.filter (fun u => !(strIncludes "base-avatars" u))).map urnToPointerS)

/-- Emote pointer set (components.ts:92-98): nonempty emote URNs that
contain a colon and not "base-emotes", token-id-stripped, deduplicated. -/
def emotePointers (es : List EmoteRef) : List String :=
  jsDedup (((es.map EmoteRef.urn).filter
    (fun u => !(u == "") && strIncludes ":" u && !(strIncludes "base-emotes" u))).map
      urnToPointerS)

def lowerL (s : String) : List Char := s.data.map Char.toLower

def endsWithChars (pat s : List Char) : Bool := startsWith pat.reverse s.reverse

/-- Does the lower-cased file name end in .glb or .gltf? -/
def isGltfFileName (f : String) : Bool :=
  endsWithChars ".glb".data (lowerL f) || endsWithChars ".gltf".data (lowerL f)

structure GltfAsset : Type where
  gltfHash : String
  gltfFile : String
  entityType : String
  contentMapping : List (String × String)
  pointer : String

/-- Pointer-to-entity-type map (components.ts:131-133): wearable pointers
are inserted first, emote pointers afterwards (overwriting), and a missing
pointer defaults to wearable. -/
def pointerType (wps eps : List String) (p : String) : String :=
  if p ∈ eps then "emote" else if p ∈ wps then "wearable" else "wearable"

/-- GLTF asset collection (components.ts:136-165): for each entity, all
content entries whose lower-cased name ends in .glb/.gltf; entities with
none are skipped; the content mapping lists every content entry. -/
def collectGltfAssets (wps eps : List String) (entities : List EntityJson) :
    List GltfAsset :=
  entities.flatMap (fun e =>
    let pointer := e.pointers.headD ""
    let entityType := pointerType wps eps pointer
    let gltfFiles := e.content.filter (fun c => isGltfFileName c.file)
    if gltfFiles.isEmpty then []
    else
      let contentMapping := e.content.map (fun c => (c.file, c.hash))
      gltfFiles.map (fun g => ⟨g.hash, g.file, entityType, contentMapping, pointer⟩))

/-- Batches of size k, mirroring the slice-based batch loops (scene
pipeline and profile pipeline).  The degenerate k = 0, which would loop
forever in the source, yields no batches. -/
def chunks {α : Type} (k : Nat) : List α → List (List α)
  | [] => []
  | x :: xs =>
    if _hk : k = 0 then []
    else (x :: xs).take k :: chunks k ((x :: xs).drop k)
termination_by l => l.length
decreasing_by
  simp only [List.length_drop, List.length_cons]
  omega

structure ProfAssetStep : Type where
  hash : String
  upload : Option String
  success : Bool

/-- Per-asset processing in the profile batches (components.ts:181-222):
submit and wait (both may throw, caught per asset); on terminal status
completed with a zip path the zip is uploaded under hash-mobile.zip. -/
def runProfileAsset (env : ProfileEnv) (a : GltfAsset) : ProfAssetStep :=
  match env.asset a.gltfHash with
  | .exn _ => ⟨a.gltfHash, none, false⟩
  | .status st zipPath _err =>
    if st = "completed" ∧ zipPath.isSome then
      ⟨a.gltfHash, some (a.gltfHash ++ "-mobile.zip"), true⟩
    else ⟨a.gltfHash, none, false⟩

/-- How a handleProfile invocation ended. -/
inductive ProfileEnd : Type
  | notReady
  | noAvatars
  | noPointers
  | caught (msg : String)
  | done (successful failed : Nat) (uploads : List String)
deriving DecidableEq

/-- The batch phase (components.ts:174-233) summarized: per-asset steps in
batches of concurrentLimit, with success/failure counts and uploaded
keys. -/
def profileSummary (env : ProfileEnv) (assets : List GltfAsset) : ProfileEnd :=
  let steps := ((chunks env.concurrentLimit assets).map
    (fun b => b.map (runProfileAsset env))).flatten
  .done (steps.filter (fun s => s.success)).length
    (steps.filter (fun s => !s.success)).length
    (steps.filterMap (fun s => s.upload))

/-- The try block of handleProfile (components.ts:50-236): a fetch throw or
a non-ok response is an error (to be caught); the not-ready check, an empty
avatar list and an empty pointer list return early; per-asset failures are
caught inside the batch and only counted. -/
def handleProfileTry (env : ProfileEnv) : Except String ProfileEnd :=
  if !env.isReady then .ok .notReady
  else
    match env.profileFetch with
    | .exn e => .error e
    | .ok pr =>
      if !pr.ok then .error "Failed to fetch profile"
      else
        match pr.avatars with
        | [] => .ok .noAvatars
        | av :: _ =>
          let wps := wearablePointers av.wearables
          let eps := emotePointers av.emotes
          if (wps ++ eps).isEmpty then .ok .noPointers
          else
            match env.entitiesFetch with
            | .exn e => .error e
            | .ok er =>
              if !er.ok then .error "Failed to fetch entities"
              else .ok (profileSummary env (collectGltfAssets wps eps er.entities))

/-- handleProfile: the whole body sits in a try whose catch only logs, so
the call itself never throws. -/
def handleProfileRun (env : ProfileEnv) : Except String ProfileEnd :=
  match handleProfileTry env with
  | .ok s => .ok s
  | .error e => .ok (.caught e)

/-- The --profile branch of initComponents (components.ts:414-424):
handleProfile is awaited and then process.exit(0) runs; an exception from
handleProfile would skip the exit. -/
def profileCliCode (env : ProfileEnv) : Option Nat :=
  match handleProfileRun env with
  | .ok _ => some 0
  | .error _ => none

/-! ### Scene optimization pipeline (godot-optimizer runner, processScene) -/

structure BatchStatusM : Type where
  status : String
  zipPath : Option String
  error : Option String

structure SceneMetadataM : Type where
  optimizedContent : List String
  externalSceneDependencies : List (String × List String)
deriving DecidableEq

/-- One engine processScene submission: scene hash, content base URL,
output hash and pack hashes (empty list = metadata-only pass). -/
structure SceneCall : Type where
  sceneHash : String
  contentBaseUrl : String
  outputHash : String
  packHashes : List String
deriving DecidableEq

/-- Environment of one processScene pipeline run: what the engine and the
metadata ZIP yield at each interaction point. -/
structure SceneEnv : Type where
  entityId : String
  contentBaseUrl : String
  isReady : Bool
  concurrentBundles : Nat
  metaSubmit : Except String String
  metaWait : Except String BatchStatusM
  zipEntries : List String
  zipParse : Except String SceneMetadataM
  assetSubmit : String → Except String String
  assetWait : String → Except String BatchStatusM

/-- GLTF hash set: the keys of externalSceneDependencies (runner line
215). -/
def gltfHashes (m : SceneMetadataM) : List String :=
  jsDedup (m.externalSceneDependencies.map Prod.fst)

/-- Set of all optimized-content hashes (runner line 216). -/
def allHashesOf (m : SceneMetadataM) : List String := jsDedup m.optimizedContent

/-- Texture hashes: optimized content not among the GLTF hashes (runner
line 217). -/
def textureHashes (m : SceneMetadataM) : List String :=
  (allHashesOf m).filter (fun h => !((gltfHashes m).contains h))

/-- The per-asset fan-out list (runner line 219): GLTF hashes followed by
texture hashes. -/
def allAssetHashes (m : SceneMetadataM) : List String :=
  gltfHashes m ++ textureHashes m

inductive MetaExtract : Type
  | emptyZip
  | metadataNotFound
  | parseErr (msg : String)
  | okMeta (m : SceneMetadataM)
deriving DecidableEq

/-- extractMetadataFromZip (runner lines 543-573): an empty ZIP, a missing
{sceneHash}-optimized.json entry, a parse failure, or the parsed
metadata. -/
def extractMetadataFromZip (env : SceneEnv) : MetaExtract :=
  if env.zipEntries.length = 0 then .emptyZip
  else if !(env.zipEntries.contains (env.entityId ++ "-optimized.json")) then
    .metadataNotFound
  else
    match env.zipParse with
    | .ok m => .okMeta m
    | .error e => .parseErr e

/-- The metadata-only submission (runner lines 142-147). -/
def metaCall (env : SceneEnv) : SceneCall :=
  ⟨env.entityId, env.contentBaseUrl, env.entityId, []⟩

/-- The per-asset submission (runner lines 273-278). -/
def assetCall (env : SceneEnv) (h : String) : SceneCall :=
  ⟨env.entityId, env.contentBaseUrl, h, [h]⟩

structure AssetStep : Type where
  hash : String
  call : SceneCall
  upload : Option String
  success : Bool
  errMsg : Option String

/-- Per-asset processing (runner lines 271-301): submit, wait, and on a
completed batch with a zip path upload {hash}-mobile.zip; any exception or
failed batch is caught and recorded without aborting the others. -/
def runAsset (env : SceneEnv) (h : String) : AssetStep :=
  match env.assetSubmit h with
  | .error e =>
    ⟨h, assetCall env h, none, false, some ("Asset " ++ h ++ " failed: " ++ e)⟩
  | .ok _ =>
    match env.assetWait h with
    | .error e =>
      ⟨h, assetCall env h, none, false, some ("Asset " ++ h ++ " failed: " ++ e)⟩
    | .ok st =>
      if st.status = "completed" ∧ st.zipPath.isSome = true then
        ⟨h, assetCall env h, some (h ++ "-mobile.zip"), true, none⟩
      else
        ⟨h, assetCall env h, none, false,
          some ("Asset " ++ h ++ " failed: " ++ st.error.getD "Unknown error")⟩

/-- The per-asset steps, in batches of concurrentBundles (runner lines
260-313). -/
def sceneSteps (env : SceneEnv) (m : SceneMetadataM) : List AssetStep :=
  ((chunks env.concurrentBundles (allAssetHashes m)).map
    (fun bt => bt.map (runAsset env))).flatten

/-- The individualZips list (runner lines 257, 288): the metadata ZIP key
followed by the key of every successfully uploaded asset. -/
def sceneZips (env : SceneEnv) (m : SceneMetadataM) : List String :=
  (env.entityId ++ "-mobile.zip") ::
    ((sceneSteps env m).filter (fun s => s.success)).filterMap (fun s => s.upload)

/-- Observable outcome of one processScene pipeline run: the rethrown
error if any, the report result fields, the ZIP keys uploaded to storage
(the report key is tracked separately since the report is always stored in
the finally block), the engine submissions made, and the batch shapes. -/
structure SceneRun : Type where
  thrown : Option String
  resultSuccess : Option Bool
  optimizedAssets : Option Nat
  individualZips : Option (List String)
  zipUploads : List String
  calls : List SceneCall
  batches : List (List String)
  totalAssets : Nat
  successfulAssets : Nat
  failedAssets : Nat
  reportKey : String

/-- A run that ends in the catch block rethrowing `msg` (runner lines
331-341): the report records failure and is still stored. -/
def thrownRun (env : SceneEnv) (msg : String) (calls : List SceneCall) : SceneRun :=
  { thrown := some msg, resultSuccess := some false, optimizedAssets := none,
    individualZips := none, zipUploads := [], calls := calls, batches := [],
    totalAssets := 0, successfulAssets := 0, failedAssets := 0,
    reportKey := env.entityId ++ "-report.json" }

/-- A run reported as success with 0 assets and no uploads (runner lines
149-160 and 190-206). -/
def emptySuccessRun (env : SceneEnv) (calls : List SceneCall) : SceneRun :=
  { thrown := none, resultSuccess := some true, optimizedAssets := some 0,
    individualZips := some [], zipUploads := [], calls := calls, batches := [],
    totalAssets := 0, successfulAssets := 0, failedAssets := 0,
    reportKey := env.entityId ++ "-report.json" }

/-- Translation of processScene (runner lines 94-342). -/
def processSceneRun (env : SceneEnv) : SceneRun :=
  if !env.isReady then thrownRun env "Asset-server is not ready" []
  else
    match env.metaSubmit with
    | .error e =>
      if strIncludes "No processable assets" e || strIncludes "400" e then
        emptySuccessRun env [metaCall env]
      else thrownRun env e [metaCall env]
    | .ok _batchId =>
      match env.metaWait with
      | .error e => thrownRun env e [metaCall env]
      | .ok st =>
        if st.status = "failed" then
          thrownRun env (st.error.getD "Metadata processing failed") [metaCall env]
        else
          match st.zipPath with
          | none => thrownRun env "No metadata ZIP file created" [metaCall env]
          | some _zp =>
            match extractMetadataFromZip env with
            | .emptyZip => emptySuccessRun env [metaCall env]
            | .metadataNotFound => emptySuccessRun env [metaCall env]
            | .parseErr e =>
              thrownRun env
                ("Could not extract metadata from ZIP: parse_error - " ++ e)
                [metaCall env]
            | .okMeta m =>
              if (allAssetHashes m).length = 0 then
                { thrown := none, resultSuccess := some true,
                  optimizedAssets := some 0,
                  individualZips := some [env.entityId ++ "-mobile.zip"],
                  zipUploads := [env.entityId ++ "-mobile.zip"],
                  calls := [metaCall env], batches := [], totalAssets := 0,
                  successfulAssets := 0, failedAssets := 0,
                  reportKey := env.entityId ++ "-report.json" }
              else
                { thrown := none,
                  resultSuccess :=
                    some (decide
                      (((sceneSteps env m).filter (fun s => !s.success)).length = 0)),
                  optimizedAssets :=
                    some ((sceneSteps env m).filter (fun s => s.success)).length,
                  individualZips := some (sceneZips env m),
                  zipUploads := sceneZips env m,
                  calls := metaCall env :: (sceneSteps env m).map (fun s => s.call),
                  batches := chunks env.concurrentBundles (allAssetHashes m),
                  totalAssets := (allAssetHashes m).length,
                  successfulAssets :=
                    ((sceneSteps env m).filter (fun s => s.success)).length,
                  failedAssets :=
                    ((sceneSteps env m).filter (fun s => !s.success)).length,
                  reportKey := env.entityId ++ "-report.json" }

/-- A concrete two-asset scene environment: metadata lists H1 and H2 with
H1 carrying external dependencies, and every per-asset batch completes
with a zip. -/
def sceneEnvW : SceneEnv :=
  { entityId := "bafy", contentBaseUrl := "https://peer/contents/",
    isReady := true, concurrentBundles := 2,
    metaSubmit := .ok "batch-1",
    metaWait := .ok ⟨"completed", some "/tmp/meta.zip", none⟩,
    zipEntries := ["bafy-optimized.json"],
    zipParse := .ok ⟨["H1", "H2"], [("H1", ["d"])]⟩,
    assetSubmit := fun _ => .ok "b",
    assetWait := fun _ => .ok ⟨"completed", some "/tmp/z.zip", none⟩ }

def sceneMetaW : SceneMetadataM := ⟨["H1", "H2"], [("H1", ["d"])]⟩

/-- A concrete environment whose metadata submission fails with a 400
"No processable assets" engine answer. -/
def sceneEnvEmpty : SceneEnv :=
  { entityId := "bafy-empty", contentBaseUrl := "https://peer/contents/",
    isReady := true, concurrentBundles := 4,
    metaSubmit :=
      .error "Failed to submit scene for processing: 400 No processable assets",
    metaWait := .error "unreached",
    zipEntries := [], zipParse := .error "unreached",
    assetSubmit := fun _ => .error "unreached",
    assetWait := fun _ => .error "unreached" }

end ConsumerProcessor

namespace ConsumerProcessor

theorem splitOnColon_ne_nil (u : JStr) : splitOnColon u ≠ [] := by
  cases u with
  | nil => simp [splitOnColon]
  | cons c rest =>
    simp only [splitOnColon]
    cases h : splitOnColon rest with
    | nil => simp
    | cons p ps =>
      by_cases hc : c = ':' <;> simp [hc]

theorem splitOnColon_no_colon (u : JStr) : ∀ p ∈ splitOnColon u, ':' ∉ p := by
  induction u with
  | nil => intro p hp; simp [splitOnColon] at hp; simp [hp]
  | cons c rest ih =>
    intro p hp
    simp only [splitOnColon] at hp
    cases h : splitOnColon rest with
    | nil => exact absurd h (splitOnColon_ne_nil rest)
    | cons q qs =>
      rw [h] at hp
      have ihq : ':' ∉ q := ih q (by rw [h]; exact List.mem_cons_self q qs)
      have hp2 : p ∈ (if c = ':' then [] :: q :: qs else (c :: q) :: qs) := hp
      clear hp
      rename' hp2 => hp
      by_cases hc : c = ':'
      · rw [if_pos hc] at hp
        rcases List.mem_cons.mp hp with hp | hp
        · simp [hp]
        · exact ih p (by rw [h]; exact hp)
      · rw [if_neg hc] at hp
        rcases List.mem_cons.mp hp with hp | hp
        · subst hp
          intro hmem
          rcases List.mem_cons.mp hmem with he | he
          · exact hc he.symm
          · exact ihq he
        · exact ih p (by rw [h]; exact List.mem_cons_of_mem q hp)

theorem splitOnColon_of_no_colon (p : JStr) (h : ':' ∉ p) : splitOnColon p = [p] := by
  induction p with
  | nil => simp [splitOnColon]
  | cons c rest ih =>
    have hc : c ≠ ':' := fun hcc => h (by simp [hcc])
    have hr : ':' ∉ rest := fun hm => h (by simp [hm])
    simp only [splitOnColon, ih hr]
    simp [hc]

theorem splitOnColon_append_colon (t p : JStr) (h : ':' ∉ p) :
    splitOnColon (p ++ ':' :: t) = p :: splitOnColon t := by
  induction p with
  | nil =>
    simp only [List.nil_append, splitOnColon]
    cases ht : splitOnColon t with
    | nil => exact absurd ht (splitOnColon_ne_nil t)
    | cons q qs => simp
  | cons c rest ih =>
    have hc : c ≠ ':' := fun hcc => h (by simp [hcc])
    have hr : ':' ∉ rest := fun hm => h (by simp [hm])
    have hdef : splitOnColon ((c :: rest) ++ ':' :: t) =
        match splitOnColon (rest ++ ':' :: t) with
        | [] => [[c]]
        | p :: ps => if c = ':' then [] :: p :: ps else (c :: p) :: ps := rfl
    rw [hdef, ih hr]
    simp [hc]

theorem splitOnColon_joinColon (ps : List JStr) (hne : ps ≠ [])
    (hnc : ∀ p ∈ ps, ':' ∉ p) : splitOnColon (joinColon ps) = ps := by
  induction ps with
  | nil => exact absurd rfl hne
  | cons p rest ih =>
    cases rest with
    | nil =>
      simp only [joinColon]
      exact splitOnColon_of_no_colon p (hnc p (List.mem_cons_self p []))
    | cons q qs =>
      simp only [joinColon]
      rw [splitOnColon_append_colon (joinColon (q :: qs)) p
        (hnc p (List.mem_cons_self p (q :: qs)))]
      congr 1
      exact ih (by simp) (fun r hr => hnc r (List.mem_cons_of_mem p hr))

/-- C9: `urnToPointer` truncates any URN containing "collections-v2" with
more than 6 colon-delimited segments to its first 6 segments, returns every
other URN unchanged, and is idempotent on every input. -/
theorem urnToPointer_spec (u : JStr) :
    (containsSub collectionsV2 u ∧ 6 < (splitOnColon u).length →
      urnToPointer u = joinColon ((splitOnColon u).take 6)) ∧
    (¬(containsSub collectionsV2 u ∧ 6 < (splitOnColon u).length) →
      urnToPointer u = u) ∧
    urnToPointer (urnToPointer u) = urnToPointer u := by
  refine ⟨fun h => by simp only [urnToPointer, if_pos h], fun h => by
    simp only [urnToPointer, if_neg h], ?_⟩
  by_cases h : containsSub collectionsV2 u ∧ 6 < (splitOnColon u).length
  · have hv : urnToPointer u = joinColon ((splitOnColon u).take 6) := by
      simp only [urnToPointer, if_pos h]
    rw [hv]
    have htake : ((splitOnColon u).take 6).length = 6 :=
      (List.length_take 6 (splitOnColon u)).trans (min_eq_left (le_of_lt h.2))
    have hne : (splitOnColon u).take 6 ≠ [] := by
      intro hnil
      rw [hnil] at htake
      simp at htake
    have hnc : ∀ p ∈ (splitOnColon u).take 6, ':' ∉ p :=
      fun p hp => splitOnColon_no_colon u p (List.mem_of_mem_take hp)
    have hsplit : splitOnColon (joinColon ((splitOnColon u).take 6)) =
        (splitOnColon u).take 6 := splitOnColon_joinColon _ hne hnc
    simp only [urnToPointer, hsplit, htake]
    simp
  · simp only [urnToPointer, if_neg h]

/-- Witness for C9: a concrete collections-v2 URN with a token id is
truncated, and the truncation is a fixed point. -/
theorem urnToPointer_spec_witness :
    urnToPointer "urn:decentraland:matic:collections-v2:0xabc:1:42".data =
      "urn:decentraland:matic:collections-v2:0xabc:1".data ∧
    urnToPointer (urnToPointer "urn:decentraland:matic:collections-v2:0xabc:1:42".data) =
      urnToPointer "urn:decentraland:matic:collections-v2:0xabc:1:42".data := by
  constructor
  · have h := (urnToPointer_spec "urn:decentraland:matic:collections-v2:0xabc:1:42".data).1
      (by constructor <;> decide)
    rw [h]
    decide
  · exact (urnToPointer_spec "urn:decentraland:matic:collections-v2:0xabc:1:42".data).2.2

/-- Counterexample to C1: a delivery whose handler throws has its failure
counter incremented but is NOT deleted from its source queue, contrary to
the claim that it is still acknowledged. -/
theorem processDelivery_exn_not_deleted :
    (processDelivery (R := Unit) "queue-url" "receipt-1"
      (HandlerOutcome.exn "boom")).failuresInc = 1 ∧
    SqsCmd.deleteMessage "queue-url" "receipt-1" ∉
      (processDelivery (R := Unit) "queue-url" "receipt-1"
        (HandlerOutcome.exn "boom")).cmds := by
  exact ⟨rfl, by simp [processDelivery]⟩

/-- C1 (amended): on handler success the delivery is acknowledged with
exactly one delete on its source queue and no failure count; on handler
exception the failure counter is incremented once and no delete is issued,
leaving the delivery for redelivery after the visibility timeout.  The
duration timer ends either way. -/
theorem processDelivery_spec {R : Type} (queueUsed receipt : String)
    (h : HandlerOutcome R) :
    (processDelivery queueUsed receipt h).cmds =
      (if h.isOk then [SqsCmd.deleteMessage queueUsed receipt] else []) ∧
    (processDelivery queueUsed receipt h).failuresInc = (if h.isOk then 0 else 1) ∧
    (processDelivery queueUsed receipt h).timerEnded = true := by
  cases h <;> simp [processDelivery, HandlerOutcome.isOk]

/-- Counterexample to C2: with an upload that always fails, the
object-store backend throws after 3 attempts while the local backend
returns successfully after a single attempt, so the two backends are not
interchangeable in failure behavior and the local backend neither retries
nor throws. -/
theorem storeFiles_backends_differ :
    s3StoreFiles (fun _ _ => false) [("k-mobile.zip", "/tmp/k.zip")] =
      .error "Failed to store file k-mobile.zip after 3 attempts" ∧
    localStoreFiles (fun _ _ => false) [("k-mobile.zip", "/tmp/k.zip")] = .ok [false] ∧
    s3FileAttempts (fun _ => false) 3 0 = 3 := by
  exact ⟨rfl, rfl, rfl⟩

/-- C2 (amended): the object-store storeFiles retries each file up to 3
times, makes at most 3 attempts per file, and succeeds exactly when every
file succeeds within its budget (otherwise the whole batch throws); the
local storeFiles makes a single attempt per file and never throws. -/
theorem storeFiles_spec (succ : String → Nat → Bool) (files : List (String × String)) :
    exceptOk (s3StoreFiles succ files) =
      decide (∀ f ∈ files, s3TryFile (succ f.1) 3 0 = true) ∧
    (∀ key, s3FileAttempts (succ key) 3 0 ≤ 3) ∧
    localStoreFiles succ files = .ok (files.map (fun f => localStoreFile succ f.1)) := by
  refine ⟨?_, ?_, ?_⟩
  · induction files with
    | nil => simp [s3StoreFiles, exceptOk]
    | cons f rest ih =>
      obtain ⟨key, path⟩ := f
      by_cases h : s3TryFile (succ key) 3 0 = true
      · have hstep : s3StoreFiles succ ((key, path) :: rest) =
            match s3StoreFiles succ rest with
            | .ok ks => .ok (key :: ks)
            | .error e => .error e := by simp [s3StoreFiles, h]
        have hrhs : (decide (∀ f ∈ (key, path) :: rest, s3TryFile (succ f.1) 3 0 = true)) =
            decide (∀ f ∈ rest, s3TryFile (succ f.1) 3 0 = true) := by
          simp [List.forall_mem_cons, h]
        rw [hstep, hrhs, ← ih]
        cases s3StoreFiles succ rest <;> rfl
      · have hnot : ¬ (∀ f ∈ (key, path) :: rest, s3TryFile (succ f.1) 3 0 = true) := by
          intro hall
          exact h (hall (key, path) (List.mem_cons_self _ _))
        simp [s3StoreFiles, h, exceptOk, hnot]
  · intro key
    cases h0 : succ key 0 <;> cases h1 : succ key 1 <;> cases h2 : succ key 2 <;>
      simp [s3FileAttempts, h0, h1, h2]
  · induction files with
    | nil => rfl
    | cons f rest ih =>
      obtain ⟨key, path⟩ := f
      simp [localStoreFiles, ih]

theorem fetchGo_retry_step_response (cfg : FetchConfig) (outcomes : Nat → AttemptOutcome)
    (rand : Nat → ℚ) (n attempt status : Nat)
    (ho : outcomes attempt = .response status)
    (hc : isRetryableStatus status = true ∧ attempt < cfg.maxRetries) :
    fetchGo cfg outcomes rand (n + 1) attempt =
      { attemptsMade := (fetchGo cfg outcomes rand n (attempt + 1)).attemptsMade + 1,
        sleeps := (attempt, calculateDelay attempt cfg (rand attempt)) ::
          (fetchGo cfg outcomes rand n (attempt + 1)).sleeps,
        outcome := (fetchGo cfg outcomes rand n (attempt + 1)).outcome } := by
  simp only [fetchGo, ho, if_pos hc]

theorem fetchGo_stop_step_response (cfg : FetchConfig) (outcomes : Nat → AttemptOutcome)
    (rand : Nat → ℚ) (n attempt status : Nat)
    (ho : outcomes attempt = .response status)
    (hc : ¬(isRetryableStatus status = true ∧ attempt < cfg.maxRetries)) :
    fetchGo cfg outcomes rand (n + 1) attempt =
      { attemptsMade := 1, sleeps := [], outcome := .ok status } := by
  simp only [fetchGo, ho, if_neg hc]

theorem fetchGo_retry_step_failure (cfg : FetchConfig) (outcomes : Nat → AttemptOutcome)
    (rand : Nat → ℚ) (n attempt : Nat) (code : String) (ab : Bool)
    (ho : outcomes attempt = .failure code ab)
    (hc : (ab = true ∨ isRetryableCode code = true) ∧ attempt < cfg.maxRetries) :
    fetchGo cfg outcomes rand (n + 1) attempt =
      { attemptsMade := (fetchGo cfg outcomes rand n (attempt + 1)).attemptsMade + 1,
        sleeps := (attempt, calculateDelay attempt cfg (rand attempt)) ::
          (fetchGo cfg outcomes rand n (attempt + 1)).sleeps,
        outcome := (fetchGo cfg outcomes rand n (attempt + 1)).outcome } := by
  simp only [fetchGo, ho, if_pos hc]

theorem fetchGo_stop_step_failure (cfg : FetchConfig) (outcomes : Nat → AttemptOutcome)
    (rand : Nat → ℚ) (n attempt : Nat) (code : String) (ab : Bool)
    (ho : outcomes attempt = .failure code ab)
    (hc : ¬((ab = true ∨ isRetryableCode code = true) ∧ attempt < cfg.maxRetries)) :
    fetchGo cfg outcomes rand (n + 1) attempt =
      { attemptsMade := 1, sleeps := [], outcome := .error code } := by
  simp only [fetchGo, ho, if_neg hc]

theorem fetchGo_attempts_le (cfg : FetchConfig) (outcomes : Nat → AttemptOutcome)
    (rand : Nat → ℚ) (fuel attempt : Nat) :
    (fetchGo cfg outcomes rand fuel attempt).attemptsMade ≤ fuel := by
  induction fuel generalizing attempt with
  | zero => simp [fetchGo]
  | succ n ih =>
    cases ho : outcomes attempt with
    | response status =>
      by_cases hc : isRetryableStatus status = true ∧ attempt < cfg.maxRetries
      · rw [fetchGo_retry_step_response cfg outcomes rand n attempt status ho hc]
        exact Nat.succ_le_succ (ih (attempt + 1))
      · rw [fetchGo_stop_step_response cfg outcomes rand n attempt status ho hc]
        exact Nat.succ_le_succ (Nat.zero_le n)
    | failure code ab =>
      by_cases hc : (ab = true ∨ isRetryableCode code = true) ∧ attempt < cfg.maxRetries
      · rw [fetchGo_retry_step_failure cfg outcomes rand n attempt code ab ho hc]
        exact Nat.succ_le_succ (ih (attempt + 1))
      · rw [fetchGo_stop_step_failure cfg outcomes rand n attempt code ab ho hc]
        exact Nat.succ_le_succ (Nat.zero_le n)

theorem fetchGo_sleeps (cfg : FetchConfig) (outcomes : Nat → AttemptOutcome)
    (rand : Nat → ℚ) (fuel attempt : Nat) :
    ∀ s ∈ (fetchGo cfg outcomes rand fuel attempt).sleeps,
      s.2 = calculateDelay s.1 cfg (rand s.1) := by
  induction fuel generalizing attempt with
  | zero => intro s hs; simp [fetchGo] at hs
  | succ n ih =>
    intro s hs
    cases ho : outcomes attempt with
    | response status =>
      by_cases hc : isRetryableStatus status = true ∧ attempt < cfg.maxRetries
      · rw [fetchGo_retry_step_response cfg outcomes rand n attempt status ho hc] at hs
        rcases List.mem_cons.mp hs with hs | hs
        · rw [hs]
        · exact ih (attempt + 1) s hs
      · rw [fetchGo_stop_step_response cfg outcomes rand n attempt status ho hc] at hs
        simp at hs
    | failure code ab =>
      by_cases hc : (ab = true ∨ isRetryableCode code = true) ∧ attempt < cfg.maxRetries
      · rw [fetchGo_retry_step_failure cfg outcomes rand n attempt code ab ho hc] at hs
        rcases List.mem_cons.mp hs with hs | hs
        · rw [hs]
        · exact ih (attempt + 1) s hs
      · rw [fetchGo_stop_step_failure cfg outcomes rand n attempt code ab ho hc] at hs
        simp at hs

theorem calculateDelay_bounds (attempt : Nat) (cfg : FetchConfig) (r : ℚ)
    (hinit : 0 ≤ cfg.initialDelayMs) (hmult : 0 ≤ cfg.backoffMultiplier)
    (hmaxd : 0 ≤ cfg.maxDelayMs) (hr0 : 0 ≤ r) (hr1 : r < 1) :
    ⌊min (cfg.initialDelayMs * cfg.backoffMultiplier ^ attempt) cfg.maxDelayMs⌋ ≤
      calculateDelay attempt cfg r ∧
    (calculateDelay attempt cfg r : ℚ) ≤
      min (cfg.initialDelayMs * cfg.backoffMultiplier ^ attempt) cfg.maxDelayMs * (5 / 4) := by
  unfold calculateDelay
  set E := cfg.initialDelayMs * cfg.backoffMultiplier ^ attempt with hE
  set C := min E cfg.maxDelayMs with hC
  have hE0 : 0 ≤ E := mul_nonneg hinit (pow_nonneg hmult attempt)
  have hC0 : 0 ≤ C := le_min hE0 hmaxd
  have hj0 : 0 ≤ C * r * (1 / 4) := by positivity
  have hjle : C * r * (1 / 4) ≤ C * (1 / 4) := by
    have : C * r ≤ C * 1 := mul_le_mul_of_nonneg_left (le_of_lt hr1) hC0
    nlinarith
  constructor
  · exact Int.floor_le_floor (by linarith)
  · calc ((⌊C + C * r * (1 / 4)⌋ : ℤ) : ℚ) ≤ C + C * r * (1 / 4) := Int.floor_le _
    _ ≤ C * (5 / 4) := by nlinarith

/-- Counterexample to C6: with the cap binding (maxDelayMs = 1000 while
initial times multiplier to the 1 is 2000), the sleep inserted before
retry number 1 equals 1000 ms, strictly below the lower bound the claim
asserts for every configuration. -/
theorem fetch_sleep_below_claimed_bound :
    (fetchModel cfgCap (fun n => if n < 2 then .response 503 else .response 200)
        (fun _ => 0)).sleeps = [(0, 1000), (1, 1000)] ∧
    ¬ (cfgCap.initialDelayMs * cfgCap.backoffMultiplier ^ 1 ≤ (1000 : ℚ)) := by
  constructor
  · norm_num [fetchModel, cfgCap, fetchGo, isRetryableStatus, RETRYABLE_HTTP_STATUS,
      calculateDelay]
  · norm_num [cfgCap]

/-- C6 (amended): the retrying fetcher makes at most maxRetries + 1
attempts, and the sleep inserted before retry number n is at least
the floor of min(initial · multiplier^n, maxDelayMs) and at most
min(initial · multiplier^n, maxDelayMs) · 1.25, for every configuration
with nonnegative delays and multiplier and every jitter draw in [0, 1). -/
theorem fetch_spec (cfg : FetchConfig) (outcomes : Nat → AttemptOutcome) (rand : Nat → ℚ)
    (hinit : 0 ≤ cfg.initialDelayMs) (hmult : 0 ≤ cfg.backoffMultiplier)
    (hmaxd : 0 ≤ cfg.maxDelayMs) (hrand : ∀ n, 0 ≤ rand n ∧ rand n < 1) :
    (fetchModel cfg outcomes rand).attemptsMade ≤ cfg.maxRetries + 1 ∧
    ∀ s ∈ (fetchModel cfg outcomes rand).sleeps,
      ⌊min (cfg.initialDelayMs * cfg.backoffMultiplier ^ s.1) cfg.maxDelayMs⌋ ≤ s.2 ∧
      (s.2 : ℚ) ≤ min (cfg.initialDelayMs * cfg.backoffMultiplier ^ s.1) cfg.maxDelayMs * (5 / 4) := by
  refine ⟨fetchGo_attempts_le cfg outcomes rand (cfg.maxRetries + 1) 0, ?_⟩
  intro s hs
  have hdel := fetchGo_sleeps cfg outcomes rand (cfg.maxRetries + 1) 0 s hs
  have hb := calculateDelay_bounds s.1 cfg (rand s.1) hinit hmult hmaxd
    (hrand s.1).1 (hrand s.1).2
  rw [hdel]
  exact hb

/-- Witness for C6: the default configuration with a 503 then a 200 makes
2 of at most 4 attempts, and the 1000 ms sleep before retry 0 meets the
amended bounds. -/
theorem fetch_spec_witness :
    (fetchModel cfgDefault outcomes503 (fun _ => 0)).attemptsMade ≤
      cfgDefault.maxRetries + 1 ∧
    ⌊min (cfgDefault.initialDelayMs * cfgDefault.backoffMultiplier ^ (0 : Nat))
        cfgDefault.maxDelayMs⌋ ≤ (1000 : ℤ) ∧
    ((1000 : ℤ) : ℚ) ≤ min (cfgDefault.initialDelayMs *
        cfgDefault.backoffMultiplier ^ (0 : Nat)) cfgDefault.maxDelayMs * (5 / 4) := by
  have h := fetch_spec cfgDefault outcomes503 (fun _ => 0)
    (by norm_num [cfgDefault]) (by norm_num [cfgDefault]) (by norm_num [cfgDefault])
    (fun n => ⟨le_refl 0, by norm_num⟩)
  have hsl : (fetchModel cfgDefault outcomes503 (fun _ => 0)).sleeps = [(0, 1000)] := by
    norm_num [fetchModel, cfgDefault, outcomes503, fetchGo, isRetryableStatus,
      RETRYABLE_HTTP_STATUS, calculateDelay]
  have hmem : ((0 : Nat), (1000 : ℤ)) ∈
      (fetchModel cfgDefault outcomes503 (fun _ => 0)).sleeps := by
    rw [hsl]; exact List.mem_singleton.mpr rfl
  exact ⟨h.1, (h.2 _ hmem).1, (h.2 _ hmem).2⟩

theorem receiveMessage_all_avail (n cur : Nat) (hn : 0 < n) :
    receiveMessage false false n (fun _ => true) cur =
      { selected := some (cur % n), fromPriority := false,
        nextCursor := (cur % n + 1) % n } := by
  have hn0 : ¬ n = 0 := Nat.pos_iff_ne_zero.mp hn
  simp only [receiveMessage, if_neg (by simp : ¬(false = true ∧ false = true)), if_neg hn0]
  have hfind : (List.range n).find? (fun i => (fun _ : Nat => true) ((cur + i) % n)) =
      some 0 := by
    cases n with
    | zero => omega
    | succ m => simp [List.range_succ_eq_map, List.find?]
  rw [hfind]
  simp

theorem pollsRR_eq_map (n : Nat) (hn : 0 < n) (cur : Nat) (k : Nat) :
    pollsRR n cur k = (List.range k).map (fun t => (cur + t) % n) := by
  induction k generalizing cur with
  | zero => simp [pollsRR]
  | succ m ih =>
    simp only [pollsRR, receiveMessage_all_avail n cur hn]
    rw [ih ((cur % n + 1) % n)]
    rw [List.range_succ_eq_map]
    simp only [List.map_cons, List.map_map]
    congr 1
    apply List.map_congr_left
    intro t _
    show ((cur % n + 1) % n + t) % n = (cur + Nat.succ t) % n
    calc ((cur % n + 1) % n + t) % n = ((cur % n + 1) + t) % n :=
          Nat.mod_add_mod _ _ _
      _ = (cur % n + (1 + t)) % n := by rw [Nat.add_assoc]
      _ = (cur + (1 + t)) % n := Nat.mod_add_mod _ _ _
      _ = (cur + Nat.succ t) % n := by rw [Nat.add_comm 1 t]

theorem count_cycle_three (cur q : Nat) (hq : q < 3) :
    ((List.range 3).map (fun t => (cur + t) % 3)).count q = 1 := by
  have hr : List.range 3 = [0, 1, 2] := rfl
  rw [hr]
  simp only [List.map_cons, List.map_nil]
  rcases (by omega : cur % 3 = 0 ∨ cur % 3 = 1 ∨ cur % 3 = 2) with h | h | h
  · have e0 : (cur + 0) % 3 = 0 := by omega
    have e1 : (cur + 1) % 3 = 1 := by omega
    have e2 : (cur + 2) % 3 = 2 := by omega
    rw [e0, e1, e2]
    interval_cases q <;> rfl
  · have e0 : (cur + 0) % 3 = 1 := by omega
    have e1 : (cur + 1) % 3 = 2 := by omega
    have e2 : (cur + 2) % 3 = 0 := by omega
    rw [e0, e1, e2]
    interval_cases q <;> rfl
  · have e0 : (cur + 0) % 3 = 2 := by omega
    have e1 : (cur + 1) % 3 = 0 := by omega
    have e2 : (cur + 2) % 3 = 1 := by omega
    rw [e0, e1, e2]
    interval_cases q <;> rfl

theorem pollsRR_count (N cur q : Nat) (hq : q < 3) :
    (pollsRR 3 cur (3 * N)).count q = N := by
  induction N generalizing cur with
  | zero => simp [pollsRR]
  | succ M ih =>
    have h3 : 3 * (M + 1) = 3 * M + 3 := by ring
    rw [h3, pollsRR_eq_map 3 (by norm_num) cur (3 * M + 3)]
    rw [List.range_add, List.map_append, List.count_append]
    rw [← pollsRR_eq_map 3 (by norm_num) cur (3 * M), ih cur]
    have hmap : (List.map (fun t => (cur + t) % 3)
        (List.map (fun t => 3 * M + t) (List.range 3))) =
        (List.range 3).map (fun t => ((cur + 3 * M) + t) % 3) := by
      rw [List.map_map]
      apply List.map_congr_left
      intro t _
      show (cur + (3 * M + t)) % 3 = ((cur + 3 * M) + t) % 3
      rw [Nat.add_assoc]
    rw [hmap, count_cycle_three (cur + 3 * M) q hq]

/-- Counterexample to C7: the adapter builds at most three entity-type
queues (scene, wearable, emote); even with every queue URL configured it
builds 3, not 4, so the claimed setting of 4 never-empty entity-type
queues cannot arise (the priority queue is not part of the round-robin). -/
theorem entityQueues_at_most_three :
    (entityQueues ⟨"scene-q", some "prio-q", some "wear-q", some "emote-q"⟩).length = 3 := by
  rfl

/-- C7 (amended): every configuration yields at most three entity-type
queues; with no priority queue and 3 never-empty entity queues, across 3N
successful polls each queue is selected exactly N times; after every
non-empty poll the cursor advances past the winning queue, and after every
fully-empty poll cycle it advances by one. -/
theorem roundRobin_spec :
    (∀ N cur q, q < 3 → (pollsRR 3 cur (3 * N)).count q = N) ∧
    (∀ (n : Nat) (avail : Nat → Bool) (cur idx : Nat), 0 < n →
      (receiveMessage false false n avail cur).selected = some idx →
      (receiveMessage false false n avail cur).nextCursor = (idx + 1) % n) ∧
    (∀ (n : Nat) (avail : Nat → Bool) (cur : Nat), 0 < n →
      (receiveMessage false false n avail cur).selected = none →
      (receiveMessage false false n avail cur).nextCursor = (cur + 1) % n) ∧
    (∀ o : SqsAdapterOptions, (entityQueues o).length ≤ 3) := by
  refine ⟨fun N cur q hq => pollsRR_count N cur q hq, ?_, ?_, ?_⟩
  · intro n avail cur idx hn hsel
    have hn0 : ¬ n = 0 := Nat.pos_iff_ne_zero.mp hn
    simp only [receiveMessage, if_neg (by simp : ¬(false = true ∧ false = true)),
      if_neg hn0] at hsel ⊢
    cases hf : (List.range n).find? (fun i => avail ((cur + i) % n)) with
    | some i =>
      rw [hf] at hsel
      simp at hsel
      rw [← hsel]
    | none =>
      rw [hf] at hsel
      simp at hsel
  · intro n avail cur hn hsel
    have hn0 : ¬ n = 0 := Nat.pos_iff_ne_zero.mp hn
    simp only [receiveMessage, if_neg (by simp : ¬(false = true ∧ false = true)),
      if_neg hn0] at hsel ⊢
    cases hf : (List.range n).find? (fun i => avail ((cur + i) % n)) with
    | some i =>
      rw [hf] at hsel
      simp at hsel
    | none =>
      rfl
  · intro o
    rcases o with ⟨qu, pq, wq, emq⟩
    cases wq <;> cases emq <;> by_cases h1 : qu = "" <;>
      simp [entityQueues, optQueue, h1] <;> split_ifs <;> simp

/-- Witness for C7: 6 polls of 3 never-empty queues select queue 1 exactly
twice; a poll won by queue 2 moves the cursor to 0; a fully-empty cycle
from cursor 1 moves it to 2. -/
theorem roundRobin_spec_witness :
    (pollsRR 3 5 6).count 1 = 2 ∧
    (receiveMessage false false 3 (fun i => i == 2) 0).nextCursor = (2 + 1) % 3 ∧
    (receiveMessage false false 3 (fun _ => false) 1).nextCursor = (1 + 1) % 3 := by
  have h := roundRobin_spec
  refine ⟨h.1 2 5 1 (by norm_num), ?_, ?_⟩
  · exact h.2.1 3 (fun i => i == 2) 0 2 (by norm_num) (by decide)
  · exact h.2.2.1 3 (fun _ => false) 1 (by norm_num) (by decide)

/-- C8: for every godot_optimizer job the engine restart runs exactly
once, strictly after the entire pipeline trace, whether the pipeline
returns normally or throws (the trace is identical in both cases), and
the events of the following jobs in the worker loop come only after that
restart, so a restart never interleaves with another job of the same
worker. -/
theorem godotOptimizer_restart_spec (j : JobSpec) (rest : List JobSpec) :
    (godotOptimizerRun j).1.count (OptEvt.restartGodot j.jobId) = 1 ∧
    (godotOptimizerRun j).1 = pipelineTrace j ++ [OptEvt.restartGodot j.jobId] ∧
    (godotOptimizerRun ⟨j.jobId, j.pipelineSteps, true⟩).1 =
      (godotOptimizerRun ⟨j.jobId, j.pipelineSteps, false⟩).1 ∧
    loopRun (j :: rest) =
      pipelineTrace j ++ OptEvt.restartGodot j.jobId :: loopRun rest := by
  refine ⟨?_, rfl, rfl, ?_⟩
  · simp [godotOptimizerRun, pipelineTrace, List.count_append, List.count_eq_zero]
  · simp [loopRun, handlerRun, godotOptimizerRun]

theorem runProfileAsset_upload_isSome (env : ProfileEnv) (a : GltfAsset) :
    (runProfileAsset env a).upload.isSome = (runProfileAsset env a).success := by
  unfold runProfileAsset
  cases env.asset a.gltfHash with
  | exn m => rfl
  | status st zp e =>
    by_cases h : st = "completed" ∧ zp.isSome = true
    · simp [h]
    · simp [h]

theorem filterMap_upload_length (steps : List ProfAssetStep)
    (h : ∀ st ∈ steps, st.upload.isSome = st.success) :
    (steps.filterMap (fun s => s.upload)).length =
      (steps.filter (fun s => s.success)).length := by
  induction steps with
  | nil => rfl
  | cons s rest ih =>
    have hs := h s (List.mem_cons_self s rest)
    have hr : ∀ st ∈ rest, st.upload.isSome = st.success :=
      fun st hst => h st (List.mem_cons_of_mem s hst)
    cases hu : s.upload with
    | none =>
      have hsucc : s.success = false := by rw [← hs, hu]; rfl
      simp [List.filterMap_cons, List.filter_cons, hu, hsucc, ih hr]
    | some v =>
      have hsucc : s.success = true := by rw [← hs, hu]; rfl
      simp [List.filterMap_cons, List.filter_cons, hu, hsucc, ih hr]

/-- C10: the --profile one-shot mode always reaches process.exit(0): every
error (profile fetch failure, entities fetch failure, asset-server not
ready, and every per-asset failure) is caught inside handleProfile, which
therefore never throws; and the batch summary lists exactly one uploaded
key per successful asset. -/
theorem handleProfile_spec (env : ProfileEnv) :
    exceptOk (handleProfileRun env) = true ∧
    profileCliCode env = some 0 ∧
    (∀ assets s f ups, profileSummary env assets = .done s f ups →
      ups.length = s) := by
  refine ⟨?_, ?_, ?_⟩
  · cases h : handleProfileTry env with
    | ok s => simp [handleProfileRun, h, exceptOk]
    | error e => simp [handleProfileRun, h, exceptOk]
  · cases h : handleProfileTry env with
    | ok s => simp [profileCliCode, handleProfileRun, h]
    | error e => simp [profileCliCode, handleProfileRun, h]
  · intro assets s f ups h
    simp only [profileSummary] at h
    injection h with hA hB hC
    subst hA
    subst hC
    apply filterMap_upload_length
    intro st hst
    simp only [List.mem_flatten, List.mem_map] at hst
    obtain ⟨l, ⟨b, _hb, rfl⟩, hstl⟩ := hst
    rcases List.mem_map.mp hstl with ⟨a, _ha, rfl⟩
    exact runProfileAsset_upload_isSome env a

/-- Witness for C10: a concrete environment where the asset server is not
ready still exits with code 0, and an empty batch uploads nothing. -/
theorem handleProfile_spec_witness :
    exceptOk (handleProfileRun ⟨false, .exn "net", .exn "net", 16, fun _ => .exn "eng"⟩) =
      true ∧
    profileCliCode ⟨false, .exn "net", .exn "net", 16, fun _ => .exn "eng"⟩ = some 0 ∧
    ([] : List String).length = 0 := by
  have h := handleProfile_spec ⟨false, .exn "net", .exn "net", 16, fun _ => .exn "eng"⟩
  refine ⟨h.1, h.2.1, h.2.2 [] 0 0 [] ?_⟩
  simp [profileSummary, chunks]

theorem mem_dedup_foldl (l acc : List String) (x : String) :
    (x ∈ l.foldl (fun acc h => if h ∈ acc then acc else acc ++ [h]) acc) ↔
      x ∈ acc ∨ x ∈ l := by
  induction l generalizing acc with
  | nil => simp
  | cons a t ih =>
    simp only [List.foldl_cons]
    by_cases h : a ∈ acc
    · rw [if_pos h, ih]
      constructor
      · rintro (hx | hx)
        · exact Or.inl hx
        · exact Or.inr (List.mem_cons_of_mem a hx)
      · rintro (hx | hx)
        · exact Or.inl hx
        · rcases List.mem_cons.mp hx with rfl | hx
          · exact Or.inl h
          · exact Or.inr hx
    · rw [if_neg h, ih]
      simp only [List.mem_append, List.mem_singleton, List.mem_cons]
      tauto

theorem jsDedup_mem (l : List String) (x : String) : x ∈ jsDedup l ↔ x ∈ l := by
  unfold jsDedup
  rw [mem_dedup_foldl]
  simp

theorem nodup_dedup_foldl (l acc : List String) (hacc : acc.Nodup) :
    (l.foldl (fun acc h => if h ∈ acc then acc else acc ++ [h]) acc).Nodup := by
  induction l generalizing acc with
  | nil => simpa using hacc
  | cons a t ih =>
    simp only [List.foldl_cons]
    by_cases h : a ∈ acc
    · rw [if_pos h]
      exact ih acc hacc
    · rw [if_neg h]
      refine ih _ (List.Nodup.append hacc (List.nodup_singleton a) ?_)
      intro y hy hya
      rw [List.mem_singleton] at hya
      subst hya
      exact h hy

theorem jsDedup_nodup (l : List String) : (jsDedup l).Nodup :=
  nodup_dedup_foldl l [] List.nodup_nil

theorem chunks_flatten {α : Type} (k : Nat) (hk : k ≠ 0) (l : List α) :
    (chunks k l).flatten = l := by
  have H : ∀ (n : Nat) (l : List α), l.length ≤ n → (chunks k l).flatten = l := by
    intro n
    induction n with
    | zero =>
      intro l hl
      have hnil : l = [] := List.length_eq_zero.mp (Nat.le_zero.mp hl)
      subst hnil
      simp [chunks]
    | succ n ih =>
      intro l hl
      cases l with
      | nil => simp [chunks]
      | cons x xs =>
        rw [chunks, dif_neg hk]
        rw [List.flatten_cons]
        rw [ih ((x :: xs).drop k)]
        · exact List.take_append_drop k (x :: xs)
        · have hk1 : 1 ≤ k := Nat.one_le_iff_ne_zero.mpr hk
          simp only [List.length_drop, List.length_cons]
          simp only [List.length_cons] at hl
          omega
  exact H l.length l (le_refl _)

theorem chunks_le {α : Type} (k : Nat) (l : List α) :
    ∀ b ∈ chunks k l, b.length ≤ k := by
  have H : ∀ (n : Nat) (l : List α), l.length ≤ n → ∀ b ∈ chunks k l, b.length ≤ k := by
    intro n
    induction n with
    | zero =>
      intro l hl b hb
      have hnil : l = [] := List.length_eq_zero.mp (Nat.le_zero.mp hl)
      subst hnil
      simp [chunks] at hb
    | succ n ih =>
      intro l hl b hb
      cases l with
      | nil => simp [chunks] at hb
      | cons x xs =>
        rw [chunks] at hb
        by_cases hk : k = 0
        · rw [dif_pos hk] at hb
          cases hb
        · rw [dif_neg hk] at hb
          rcases List.mem_cons.mp hb with rfl | hb
          · rw [List.length_take]
            exact min_le_left _ _
          · refine ih ((x :: xs).drop k) ?_ b hb
            simp only [List.length_drop, List.length_cons]
            simp only [List.length_cons] at hl
            omega
  exact H l.length l (le_refl _)

theorem length_filter_add_length_filter_not {α : Type} (l : List α) (p : α → Bool) :
    (l.filter p).length + (l.filter (fun x => !(p x))).length = l.length := by
  induction l with
  | nil => rfl
  | cons a t ih =>
    by_cases h : p a = true
    · simp [List.filter_cons, h, ← ih]
      omega
    · have h2 : p a = false := by
        cases hp : p a
        · rfl
        · exact absurd hp h
      simp [List.filter_cons, h2, ← ih]
      omega

theorem allAssetHashes_nodup (m : SceneMetadataM) : (allAssetHashes m).Nodup := by
  unfold allAssetHashes
  refine List.Nodup.append (jsDedup_nodup _) ?_ ?_
  · exact (jsDedup_nodup _).filter _
  · intro x hx hx2
    unfold textureHashes at hx2
    have hcond := (List.mem_filter.mp hx2).2
    simp only [Bool.not_eq_true'] at hcond
    have hc2 : (gltfHashes m).contains x = true := List.elem_iff.mpr hx
    rw [hc2] at hcond
    simp at hcond

theorem mem_allAssetHashes (m : SceneMetadataM) (h : String) :
    h ∈ allAssetHashes m ↔
      (h ∈ m.externalSceneDependencies.map Prod.fst ∨ h ∈ m.optimizedContent) := by
  unfold allAssetHashes textureHashes
  rw [List.mem_append, List.mem_filter]
  unfold gltfHashes allHashesOf
  rw [jsDedup_mem, jsDedup_mem]
  constructor
  · rintro (hx | ⟨hx, _⟩)
    · exact Or.inl hx
    · exact Or.inr hx
  · rintro (hx | hx)
    · exact Or.inl hx
    · by_cases hg : h ∈ m.externalSceneDependencies.map Prod.fst
      · exact Or.inl hg
      · refine Or.inr ⟨hx, ?_⟩
        simp only [Bool.not_eq_true']
        cases hc : (gltfHashes m).contains h
        · exact hc
        · exact absurd ((jsDedup_mem _ _).mp (List.elem_iff.mp hc)) hg

theorem runAsset_call (env : SceneEnv) (h : String) :
    (runAsset env h).call = assetCall env h := by
  unfold runAsset
  cases env.assetSubmit h with
  | error e => rfl
  | ok b =>
    cases env.assetWait h with
    | error e => rfl
    | ok st =>
      by_cases hc : st.status = "completed" ∧ st.zipPath.isSome = true
      · simp [hc]
      · simp [hc]

theorem sceneSteps_eq_map (env : SceneEnv) (m : SceneMetadataM)
    (hk : env.concurrentBundles ≠ 0) :
    sceneSteps env m = (allAssetHashes m).map (runAsset env) := by
  unfold sceneSteps
  rw [← List.map_flatten]
  rw [chunks_flatten env.concurrentBundles hk]

theorem processSceneRun_phaseB (env : SceneEnv) (b : String) (st : BatchStatusM)
    (zp : String) (m : SceneMetadataM)
    (hready : env.isReady = true) (hsub : env.metaSubmit = .ok b)
    (hwait : env.metaWait = .ok st) (hst : ¬ st.status = "failed")
    (hzp : st.zipPath = some zp) (hmeta : extractMetadataFromZip env = .okMeta m) :
    processSceneRun env =
      (if (allAssetHashes m).length = 0 then
        { thrown := none, resultSuccess := some true, optimizedAssets := some 0,
          individualZips := some [env.entityId ++ "-mobile.zip"],
          zipUploads := [env.entityId ++ "-mobile.zip"],
          calls := [metaCall env], batches := [], totalAssets := 0,
          successfulAssets := 0, failedAssets := 0,
          reportKey := env.entityId ++ "-report.json" }
      else
        { thrown := none,
          resultSuccess :=
            some (decide (((sceneSteps env m).filter (fun s => !s.success)).length = 0)),
          optimizedAssets := some ((sceneSteps env m).filter (fun s => s.success)).length,
          individualZips := some (sceneZips env m),
          zipUploads := sceneZips env m,
          calls := metaCall env :: (sceneSteps env m).map (fun s => s.call),
          batches := chunks env.concurrentBundles (allAssetHashes m),
          totalAssets := (allAssetHashes m).length,
          successfulAssets := ((sceneSteps env m).filter (fun s => s.success)).length,
          failedAssets := ((sceneSteps env m).filter (fun s => !s.success)).length,
          reportKey := env.entityId ++ "-report.json" }) := by
  simp only [processSceneRun, hready, hsub, hwait, hzp, hmeta, if_neg hst, Bool.not_true,
    Bool.false_eq_true, if_false]

/-- C3: once the metadata pass yields parsed SceneMetadata, the per-asset
fan-out issues exactly one processScene call with output_hash = h and
pack_hashes = [h] for each hash h in G union T (G the keys of
externalSceneDependencies, T the optimizedContent outside G), in
successive batches of at most concurrentBundles, and every asset whose
batch completes with a zip path has {h}-mobile.zip uploaded. -/
theorem processScene_fanout_spec (env : SceneEnv) (b : String) (st : BatchStatusM)
    (zp : String) (m : SceneMetadataM)
    (hready : env.isReady = true) (hsub : env.metaSubmit = .ok b)
    (hwait : env.metaWait = .ok st) (hst : ¬ st.status = "failed")
    (hzp : st.zipPath = some zp) (hmeta : extractMetadataFromZip env = .okMeta m)
    (hk : env.concurrentBundles ≠ 0) :
    (processSceneRun env).calls =
      metaCall env :: (allAssetHashes m).map (assetCall env) ∧
    (∀ h, h ∈ allAssetHashes m ↔
      (h ∈ m.externalSceneDependencies.map Prod.fst ∨ h ∈ m.optimizedContent)) ∧
    (∀ h ∈ allAssetHashes m,
      (processSceneRun env).calls.count (assetCall env h) = 1) ∧
    (processSceneRun env).batches.flatten = allAssetHashes m ∧
    (∀ bt ∈ (processSceneRun env).batches, bt.length ≤ env.concurrentBundles) ∧
    (∀ h ∈ allAssetHashes m, ∀ st2, exceptOk (env.assetSubmit h) = true →
      env.assetWait h = .ok st2 → st2.status = "completed" →
      st2.zipPath.isSome = true →
      (h ++ "-mobile.zip") ∈ (processSceneRun env).zipUploads) := by
  rw [processSceneRun_phaseB env b st zp m hready hsub hwait hst hzp hmeta]
  have hsteps : sceneSteps env m = (allAssetHashes m).map (runAsset env) :=
    sceneSteps_eq_map env m hk
  have hcalls : metaCall env :: (sceneSteps env m).map (fun s => s.call) =
      metaCall env :: (allAssetHashes m).map (assetCall env) := by
    rw [hsteps, List.map_map]
    congr 1
    apply List.map_congr_left
    intro h _
    exact runAsset_call env h
  by_cases hlen : (allAssetHashes m).length = 0
  · rw [if_pos hlen]
    have hnil : allAssetHashes m = [] := List.length_eq_zero.mp hlen
    refine ⟨?_, mem_allAssetHashes m, ?_, ?_, ?_, ?_⟩
    · rw [hnil]
      rfl
    · intro h hh
      rw [hnil] at hh
      cases hh
    · rw [hnil]
      rfl
    · intro bt hbt
      cases hbt
    · intro h hh
      rw [hnil] at hh
      cases hh
  · rw [if_neg hlen]
    refine ⟨hcalls, mem_allAssetHashes m, ?_, ?_, ?_, ?_⟩
    · intro h hh
      show (metaCall env :: (sceneSteps env m).map (fun s => s.call)).count
        (assetCall env h) = 1
      rw [hcalls]
      have hinj : Function.Injective (assetCall env) := by
        intro a1 a2 hae
        simpa [assetCall] using congrArg SceneCall.outputHash hae
      have hne : assetCall env h ≠ metaCall env := by
        simp [metaCall, assetCall]
      rw [List.count_cons_of_ne hne]
      exact List.count_eq_one_of_mem ((allAssetHashes_nodup m).map hinj)
        (List.mem_map_of_mem _ hh)
    · exact chunks_flatten env.concurrentBundles hk (allAssetHashes m)
    · exact chunks_le env.concurrentBundles (allAssetHashes m)
    · intro h hh st2 hsubm hw hst2 hzp2
      show (h ++ "-mobile.zip") ∈ sceneZips env m
      have hra : runAsset env h =
          ⟨h, assetCall env h, some (h ++ "-mobile.zip"), true, none⟩ := by
        cases hsb : env.assetSubmit h with
        | error e =>
          rw [hsb] at hsubm
          simp [exceptOk] at hsubm
        | ok b2 =>
          simp only [runAsset, hsb, hw]
          rw [if_pos ⟨hst2, hzp2⟩]
      have hmem : runAsset env h ∈ (sceneSteps env m).filter (fun s => s.success) := by
        rw [hsteps]
        exact List.mem_filter.mpr ⟨List.mem_map_of_mem _ hh, by rw [hra]⟩
      exact List.mem_cons_of_mem _
        (List.mem_filterMap.mpr ⟨runAsset env h, hmem, by rw [hra]⟩)

/-- Witness for C3: the two-asset scene environment issues the metadata
call plus one call per hash, counts each exactly once, and uploads
H1-mobile.zip. -/
theorem processScene_fanout_spec_witness :
    (processSceneRun sceneEnvW).calls =
      metaCall sceneEnvW :: (allAssetHashes sceneMetaW).map (assetCall sceneEnvW) ∧
    (processSceneRun sceneEnvW).calls.count (assetCall sceneEnvW "H1") = 1 ∧
    ("H1" ++ "-mobile.zip") ∈ (processSceneRun sceneEnvW).zipUploads := by
  have h := processScene_fanout_spec sceneEnvW "batch-1"
    ⟨"completed", some "/tmp/meta.zip", none⟩ "/tmp/meta.zip" sceneMetaW
    rfl rfl rfl (by decide) rfl (by decide) (by decide)
  refine ⟨h.1, h.2.2.1 "H1" (by decide), ?_⟩
  exact h.2.2.2.2.2 "H1" (by decide) ⟨"completed", some "/tmp/z.zip", none⟩
    (by decide) rfl (by decide) (by decide)

/-- C4: in the per-asset phase no failure aborts the rest: every asset gets
its call, successes and failures partition the total, result.success is
true iff the failure count is zero, and the report lists exactly the
uploaded keys. -/
theorem processScene_report_spec (env : SceneEnv) (b : String) (st : BatchStatusM)
    (zp : String) (m : SceneMetadataM)
    (hready : env.isReady = true) (hsub : env.metaSubmit = .ok b)
    (hwait : env.metaWait = .ok st) (hst : ¬ st.status = "failed")
    (hzp : st.zipPath = some zp) (hmeta : extractMetadataFromZip env = .okMeta m)
    (hk : env.concurrentBundles ≠ 0) :
    (processSceneRun env).thrown = none ∧
    (processSceneRun env).totalAssets = (allAssetHashes m).length ∧
    (processSceneRun env).successfulAssets + (processSceneRun env).failedAssets =
      (processSceneRun env).totalAssets ∧
    (processSceneRun env).resultSuccess =
      some (decide ((processSceneRun env).failedAssets = 0)) ∧
    (processSceneRun env).individualZips = some ((processSceneRun env).zipUploads) ∧
    (processSceneRun env).calls.length = 1 + (processSceneRun env).totalAssets := by
  rw [processSceneRun_phaseB env b st zp m hready hsub hwait hst hzp hmeta]
  have hsteps : sceneSteps env m = (allAssetHashes m).map (runAsset env) :=
    sceneSteps_eq_map env m hk
  by_cases hlen : (allAssetHashes m).length = 0
  · rw [if_pos hlen]
    refine ⟨rfl, ?_, rfl, rfl, rfl, rfl⟩
    simp [hlen]
  · rw [if_neg hlen]
    refine ⟨rfl, by simp, ?_, rfl, rfl, ?_⟩
    · show ((sceneSteps env m).filter (fun s => s.success)).length +
        ((sceneSteps env m).filter (fun s => !s.success)).length =
        (allAssetHashes m).length
      rw [length_filter_add_length_filter_not, hsteps, List.length_map]
    · show (metaCall env :: (sceneSteps env m).map (fun s => s.call)).length =
        1 + (allAssetHashes m).length
      rw [List.length_cons, List.length_map, hsteps, List.length_map]
      omega

/-- Witness for C4: the two-asset scene environment never throws, its
success/failure counts partition the total, result.success reflects a zero
failure count, and the report lists the uploaded keys. -/
theorem processScene_report_spec_witness :
    (processSceneRun sceneEnvW).thrown = none ∧
    (processSceneRun sceneEnvW).successfulAssets +
      (processSceneRun sceneEnvW).failedAssets = (processSceneRun sceneEnvW).totalAssets ∧
    (processSceneRun sceneEnvW).resultSuccess =
      some (decide ((processSceneRun sceneEnvW).failedAssets = 0)) ∧
    (processSceneRun sceneEnvW).individualZips =
      some ((processSceneRun sceneEnvW).zipUploads) := by
  have h := processScene_report_spec sceneEnvW "batch-1"
    ⟨"completed", some "/tmp/meta.zip", none⟩ "/tmp/meta.zip" sceneMetaW
    rfl rfl rfl (by decide) rfl (by decide) (by decide)
  exact ⟨h.1, h.2.2.1, h.2.2.2.1, h.2.2.2.2.1⟩

/-- C5: a metadata submission failing with a 400 or "No processable
assets" error text, an empty metadata ZIP, or a ZIP lacking the
{scene_hash}-optimized.json entry all end the scene job as success with 0
optimized assets, an empty individualZips list and no ZIP uploaded —
only the {entityId}-report.json is stored. -/
theorem processScene_empty_spec (env : SceneEnv)
    (hready : env.isReady = true)
    (hcase : (∃ e, env.metaSubmit = .error e ∧
        (strIncludes "No processable assets" e || strIncludes "400" e) = true) ∨
      (∃ b st zp, env.metaSubmit = .ok b ∧ env.metaWait = .ok st ∧
        ¬ st.status = "failed" ∧ st.zipPath = some zp ∧
        (env.zipEntries = [] ∨
          env.zipEntries.contains (env.entityId ++ "-optimized.json") = false))) :
    (processSceneRun env).thrown = none ∧
    (processSceneRun env).resultSuccess = some true ∧
    (processSceneRun env).optimizedAssets = some 0 ∧
    (processSceneRun env).individualZips = some [] ∧
    (processSceneRun env).zipUploads = [] ∧
    (processSceneRun env).reportKey = env.entityId ++ "-report.json" := by
  have hrun : processSceneRun env = emptySuccessRun env [metaCall env] := by
    rcases hcase with ⟨e, he, hinc⟩ | ⟨b, st, zp, hsub, hwait, hst, hzp, hent⟩
    · simp only [processSceneRun, hready, he, hinc, Bool.not_true,
        Bool.false_eq_true, if_false, if_true]
    · have hext : extractMetadataFromZip env = .emptyZip ∨
          extractMetadataFromZip env = .metadataNotFound := by
        rcases hent with hent | hent
        · left
          simp [extractMetadataFromZip, hent]
        · by_cases hl : env.zipEntries.length = 0
          · left
            simp [extractMetadataFromZip, hl]
          · right
            unfold extractMetadataFromZip
            rw [if_neg hl, if_pos (by rw [hent]; rfl)]
      rcases hext with hext | hext <;>
        simp only [processSceneRun, hready, hsub, hwait, hzp, hext, if_neg hst,
          Bool.not_true, Bool.false_eq_true, if_false]
  rw [hrun]
  exact ⟨rfl, rfl, rfl, rfl, rfl, rfl⟩

/-- Witness for C5: a concrete scene whose metadata submission fails with
"400 No processable assets" is reported as success with no uploads. -/
theorem processScene_empty_spec_witness :
    (processSceneRun sceneEnvEmpty).thrown = none ∧
    (processSceneRun sceneEnvEmpty).resultSuccess = some true ∧
    (processSceneRun sceneEnvEmpty).optimizedAssets = some 0 ∧
    (processSceneRun sceneEnvEmpty).individualZips = some [] ∧
    (processSceneRun sceneEnvEmpty).zipUploads = [] ∧
    (processSceneRun sceneEnvEmpty).reportKey = "bafy-empty" ++ "-report.json" := by
  exact processScene_empty_spec sceneEnvEmpty rfl
    (Or.inl ⟨"Failed to submit scene for processing: 400 No processable assets",
      rfl, by decide⟩)

end ConsumerProcessor
